import Mathlib

/-!
Verification of the SSD1306 LCD plugin (ssd1306.py).

The Python source is shallowly embedded below.  Python integers are
modelled as `Int`; Python's floor division `//` and modulo `%` are
`Int.fdiv` / `Int.fmod` (exactly Python's semantics).  Byte sequences are
`List Nat`.  The I2C bus is modelled by explicit success flags: each bus
transaction is given a `Bool` telling whether `smbus` raised; the trace of
attempted transactions `(command byte, payload bytes)` is returned so that
"performs the same device writes" claims can be stated.  Python's
`print` logging is not modelled (it does not affect state beyond the
sticky `write_failure` flag, which is modelled).
-/

namespace SSD1306

/-- Constant `Lcd.CONTROL_BYTE` from the source. -/
def CONTROL_BYTE : Nat := 0x00

/-- Constant `Lcd.DATA_BYTE` from the source. -/
def DATA_BYTE : Nat := 0x40

/-- Constant `Lcd.JUSTIFY_LEFT` from the source. -/
def JUSTIFY_LEFT : Nat := 0

/-- Constant `Lcd.JUSTIFY_RIGHT` from the source. -/
def JUSTIFY_RIGHT : Nat := 1

/-- Constant `Lcd.JUSTIFY_CENTER` from the source. -/
def JUSTIFY_CENTER : Nat := 2

/-- The mutable state of an `Lcd` object: device geometry
(`_min_col_addr` .. `_max_row_addr`), the last selected view range
(`_gmin_col` .. `_gmax_row`), the write cursor (`_current_col`,
`_current_row`), the sticky write-failure flag, the power state and the
enabled flag. -/
structure Lcd where
  min_col_addr : Int
  max_col_addr : Int
  min_row_addr : Int
  max_row_addr : Int
  gmin_col : Int
  gmax_col : Int
  gmin_row : Int
  gmax_row : Int
  current_col : Int
  current_row : Int
  write_failure : Bool
  power_state : Bool
  enabled : Bool
  deriving Repr, DecidableEq

/-- Model of `Lcd.__init__`: geometry derived from the pixel dimensions; the view
range starts as the whole screen and the cursor at the origin. -/
def Lcd.init (screen_pixel_width screen_pixel_height : Int) : Lcd :=
  { min_col_addr := 0
    max_col_addr := screen_pixel_width - 1
    min_row_addr := 0
    max_row_addr := (screen_pixel_height + 7).fdiv 8 - 1
    gmin_col := 0
    gmax_col := screen_pixel_width - 1
    gmin_row := 0
    gmax_row := (screen_pixel_height + 7).fdiv 8 - 1
    current_col := 0
    current_row := 0
    write_failure := false
    power_state := false
    enabled := true }

/-- Model of `Lcd._lcd_increment_current`: advances the cursor by `x` columns.
Direct translation: `current_col += x`;
`current_row = ((current_col // columns) + current_row) % rows + gmin_row`;
`current_col = (current_col % columns) + gmin_col`. -/
def lcd_increment_current (lcd : Lcd) (x : Int) : Lcd :=
  let columns := lcd.gmax_col - lcd.gmin_col + 1
  let rows := lcd.gmax_row - lcd.gmin_row + 1
  let cc := lcd.current_col + x
  { lcd with
    current_row := ((cc.fdiv columns + lcd.current_row).fmod rows) + lcd.gmin_row
    current_col := (cc.fmod columns) + lcd.gmin_col }

/-- Result of a driver write operation: the boolean status the Python
method returns, the new driver state, and the trace of attempted bus
transactions as `(command byte, payload)` pairs. -/
structure OpResult where
  status : Bool
  lcd : Lcd
  trace : List (Nat × List Nat)
  deriving Repr, DecidableEq

/-- Model of `Lcd._write_control_byte`: sends one control byte when enabled (or
forced); on bus failure sets the sticky `write_failure` flag and returns
`False`.  `busOk` tells whether the bus transaction succeeds. -/
def write_control_byte (lcd : Lcd) (byte : Nat) (force : Bool) (busOk : Bool) :
    OpResult :=
  if lcd.enabled || force then
    if busOk then ⟨true, lcd, [(CONTROL_BYTE, [byte])]⟩
    else ⟨false, { lcd with write_failure := true }, [(CONTROL_BYTE, [byte])]⟩
  else ⟨false, lcd, []⟩

/-- Model of `Lcd._write_data_byte`: sends one data byte when enabled; on success
advances the cursor by one column; on bus failure sets `write_failure`
and returns `False`. -/
def write_data_byte (lcd : Lcd) (byte : Nat) (busOk : Bool) : OpResult :=
  if lcd.enabled then
    if busOk then ⟨true, lcd_increment_current lcd 1, [(DATA_BYTE, [byte])]⟩
    else ⟨false, { lcd with write_failure := true }, [(DATA_BYTE, [byte])]⟩
  else ⟨false, lcd, []⟩

/-- The chunking `[sequence[i:i + n] for i in range(0, len(sequence), n)]`
used by `Lcd._write_sequence` with `n = 32`: chunk `k` is the slice
`sequence[k*n : k*n + n]`, and `range(0, len, n)` has `⌈len/n⌉`
elements.  (A step of `0` cannot occur — Python would raise — so that
case returns `[]`.) -/
def chunkList (n : Nat) (l : List Nat) : List (List Nat) :=
  if n = 0 then []
  else (List.range ((l.length + n - 1) / n)).map
    (fun i => (l.drop (i * n)).take n)

/-- Body of the per-chunk loop of `Lcd._write_sequence`: the state is
`(status, lcd, remaining success flags)`.  A successful chunk with the
data command advances the cursor by the *full original sequence length*
`seqLen` (as the source does); a failed chunk sets `write_failure` and
keeps the status. -/
def write_sequence_step (cmd : Nat) (seqLen : Nat)
    (st : Bool × Lcd × List Bool) (_chunk : List Nat) :
    Bool × Lcd × List Bool :=
  let ok := st.2.2.headD false
  let rest := st.2.2.tail
  if ok then
    let lcd2 := if cmd == DATA_BYTE then
        lcd_increment_current st.2.1 (Int.ofNat seqLen)
      else st.2.1
    (true, lcd2, rest)
  else (st.1, { st.2.1 with write_failure := true }, rest)

/-- Model of `Lcd._write_sequence`: when enabled, writes the sequence in
chunks of at most 32 bytes, one bus transaction per chunk.  Each chunk
consumes one success flag from `oks` (missing flags count as failures).
The returned status is `True` as soon as any chunk succeeded (the source
never resets `status` to `False`). -/
def write_sequence (lcd : Lcd) (cmd : Nat) (sequence : List Nat)
    (oks : List Bool) : OpResult :=
  if lcd.enabled then
    let chunks := chunkList 32 sequence
    let res := chunks.foldl (write_sequence_step cmd sequence.length)
      (false, lcd, oks)
    ⟨res.1, res.2.1, chunks.map (fun c => (cmd, c))⟩
  else ⟨false, lcd, []⟩

/-- Model of `Lcd._write_control_sequence`, with one success flag per chunk. -/
def write_control_sequence (lcd : Lcd) (sequence : List Nat)
    (oks : List Bool) : OpResult :=
  write_sequence lcd CONTROL_BYTE sequence oks

/-- Model of `Lcd._write_data_sequence`, with one success flag per chunk. -/
def write_data_sequence (lcd : Lcd) (sequence : List Nat)
    (oks : List Bool) : OpResult :=
  write_sequence lcd DATA_BYTE sequence oks

/-- Model of `Lcd._lcd_set_print_area`: validates the requested window against the
device geometry; on valid arguments emits the `0x21`/`0x22` control
sequence and then — *unconditionally, whether or not the transmission
succeeded* — records the new view range and resets the cursor to
`(min_col, min_row)`, returning the transmission status.  The payload
bytes are the (validated, hence non-negative) coordinates. -/
def lcd_set_print_area (lcd : Lcd) (min_col max_col min_row max_row : Int)
    (busOk : Bool) : OpResult :=
  if min_col < 0 ∨ max_col > lcd.max_col_addr ∨ max_col < min_col then
    ⟨false, lcd, []⟩
  else if min_row < 0 ∨ max_row > lcd.max_row_addr ∨ max_row < min_row then
    ⟨false, lcd, []⟩
  else
    let seq := [0x21, min_col.toNat, max_col.toNat,
                0x22, min_row.toNat, max_row.toNat]
    let r := write_control_sequence lcd seq
      (List.replicate (chunkList 32 seq).length busOk)
    ⟨r.status,
     { r.lcd with
       gmin_col := min_col, gmax_col := max_col
       gmin_row := min_row, gmax_row := max_row
       current_col := min_col, current_row := min_row },
     r.trace⟩

/-- Constant `Lcd.LCD_ASCII_BEGIN` from the source. -/
def LCD_ASCII_BEGIN : Nat := 0x20

/-- Constant `Lcd.LCD_ASCII_MAX` from the source. -/
def LCD_ASCII_MAX : Nat := 0x7F

/-- The 5-byte glyph table `Lcd.LCD_ASCII` for code points 0x20..0x7F. -/
def LCD_ASCII : List (List Nat) := [
  [0x00, 0x00, 0x00, 0x00, 0x00],
  [0x00, 0x00, 0x5F, 0x00, 0x00],
  [0x00, 0x07, 0x00, 0x07, 0x00],
  [0x14, 0x7F, 0x14, 0x7F, 0x14],
  [0x24, 0x2A, 0x7F, 0x2A, 0x12],
  [0x23, 0x13, 0x08, 0x64, 0x62],
  [0x36, 0x49, 0x55, 0x22, 0x50],
  [0x00, 0x05, 0x03, 0x00, 0x00],
  [0x00, 0x1C, 0x22, 0x41, 0x00],
  [0x00, 0x41, 0x22, 0x1C, 0x00],
  [0x08, 0x2A, 0x1C, 0x2A, 0x08],
  [0x08, 0x08, 0x3E, 0x08, 0x08],
  [0x00, 0x50, 0x30, 0x00, 0x00],
  [0x08, 0x08, 0x08, 0x08, 0x08],
  [0x00, 0x60, 0x60, 0x00, 0x00],
  [0x20, 0x10, 0x08, 0x04, 0x02],
  [0x3E, 0x51, 0x49, 0x45, 0x3E],
  [0x00, 0x42, 0x7F, 0x40, 0x00],
  [0x42, 0x61, 0x51, 0x49, 0x46],
  [0x21, 0x41, 0x45, 0x4B, 0x31],
  [0x18, 0x14, 0x12, 0x7F, 0x10],
  [0x27, 0x45, 0x45, 0x45, 0x39],
  [0x3C, 0x4A, 0x49, 0x49, 0x30],
  [0x01, 0x71, 0x09, 0x05, 0x03],
  [0x36, 0x49, 0x49, 0x49, 0x36],
  [0x06, 0x49, 0x49, 0x29, 0x1E],
  [0x00, 0x36, 0x36, 0x00, 0x00],
  [0x00, 0x56, 0x36, 0x00, 0x00],
  [0x00, 0x08, 0x14, 0x22, 0x41],
  [0x14, 0x14, 0x14, 0x14, 0x14],
  [0x41, 0x22, 0x14, 0x08, 0x00],
  [0x02, 0x01, 0x51, 0x09, 0x06],
  [0x32, 0x49, 0x79, 0x41, 0x3E],
  [0x7E, 0x11, 0x11, 0x11, 0x7E],
  [0x7F, 0x49, 0x49, 0x49, 0x36],
  [0x3E, 0x41, 0x41, 0x41, 0x22],
  [0x7F, 0x41, 0x41, 0x22, 0x1C],
  [0x7F, 0x49, 0x49, 0x49, 0x41],
  [0x7F, 0x09, 0x09, 0x01, 0x01],
  [0x3E, 0x41, 0x41, 0x51, 0x32],
  [0x7F, 0x08, 0x08, 0x08, 0x7F],
  [0x00, 0x41, 0x7F, 0x41, 0x00],
  [0x20, 0x40, 0x41, 0x3F, 0x01],
  [0x7F, 0x08, 0x14, 0x22, 0x41],
  [0x7F, 0x40, 0x40, 0x40, 0x40],
  [0x7F, 0x02, 0x04, 0x02, 0x7F],
  [0x7F, 0x04, 0x08, 0x10, 0x7F],
  [0x3E, 0x41, 0x41, 0x41, 0x3E],
  [0x7F, 0x09, 0x09, 0x09, 0x06],
  [0x3E, 0x41, 0x51, 0x21, 0x5E],
  [0x7F, 0x09, 0x19, 0x29, 0x46],
  [0x46, 0x49, 0x49, 0x49, 0x31],
  [0x01, 0x01, 0x7F, 0x01, 0x01],
  [0x3F, 0x40, 0x40, 0x40, 0x3F],
  [0x1F, 0x20, 0x40, 0x20, 0x1F],
  [0x7F, 0x20, 0x18, 0x20, 0x7F],
  [0x63, 0x14, 0x08, 0x14, 0x63],
  [0x03, 0x04, 0x78, 0x04, 0x03],
  [0x61, 0x51, 0x49, 0x45, 0x43],
  [0x00, 0x00, 0x7F, 0x41, 0x41],
  [0x02, 0x04, 0x08, 0x10, 0x20],
  [0x41, 0x41, 0x7F, 0x00, 0x00],
  [0x04, 0x02, 0x01, 0x02, 0x04],
  [0x40, 0x40, 0x40, 0x40, 0x40],
  [0x00, 0x01, 0x02, 0x04, 0x00],
  [0x20, 0x54, 0x54, 0x54, 0x78],
  [0x7F, 0x48, 0x44, 0x44, 0x38],
  [0x38, 0x44, 0x44, 0x44, 0x20],
  [0x38, 0x44, 0x44, 0x48, 0x7F],
  [0x38, 0x54, 0x54, 0x54, 0x18],
  [0x08, 0x7E, 0x09, 0x01, 0x02],
  [0x08, 0x14, 0x54, 0x54, 0x3C],
  [0x7F, 0x08, 0x04, 0x04, 0x78],
  [0x00, 0x44, 0x7D, 0x40, 0x00],
  [0x20, 0x40, 0x44, 0x3D, 0x00],
  [0x00, 0x7F, 0x10, 0x28, 0x44],
  [0x00, 0x41, 0x7F, 0x40, 0x00],
  [0x7C, 0x04, 0x18, 0x04, 0x78],
  [0x7C, 0x08, 0x04, 0x04, 0x78],
  [0x38, 0x44, 0x44, 0x44, 0x38],
  [0x7C, 0x14, 0x14, 0x14, 0x08],
  [0x08, 0x14, 0x14, 0x18, 0x7C],
  [0x7C, 0x08, 0x04, 0x04, 0x08],
  [0x48, 0x54, 0x54, 0x54, 0x20],
  [0x04, 0x3F, 0x44, 0x40, 0x20],
  [0x3C, 0x40, 0x40, 0x20, 0x7C],
  [0x1C, 0x20, 0x40, 0x20, 0x1C],
  [0x3C, 0x40, 0x30, 0x40, 0x3C],
  [0x44, 0x28, 0x10, 0x28, 0x44],
  [0x0C, 0x50, 0x50, 0x50, 0x3C],
  [0x44, 0x64, 0x54, 0x4C, 0x44],
  [0x00, 0x08, 0x36, 0x41, 0x00],
  [0x00, 0x00, 0x7F, 0x00, 0x00],
  [0x00, 0x41, 0x36, 0x08, 0x00],
  [0x08, 0x08, 0x2A, 0x1C, 0x08],
  [0x08, 0x1C, 0x2A, 0x08, 0x08]]

/-- The fallback glyph `Lcd.char_other` for out-of-table characters. -/
def char_other : List Nat := [0x7F, 0x7F, 0x7F, 0x7F, 0x7F]


/-- Big-endian byte-list to integer:
`int.from_bytes(bytes(lst), byteorder='big')`. -/
def bytesToNat (l : List Nat) : Nat :=
  l.foldl (fun acc b => acc * 256 + b) 0

/-- Big-endian integer to byte list:
`int(v).to_bytes(length, byteorder='big')`. -/
def natToBytes : Nat → Nat → List Nat
  | 0, _ => []
  | n + 1, v => (v >>> (8 * n)) % 256 :: natToBytes n v

/-- Model of `Lcd._bit_shift_right_byte_list` (Python 3 branch): treat the list as
one big-endian integer, shift it right by `num` bits, convert back to a
list of the original length. -/
def bit_shift_right_byte_list (lst : List Nat) (num : Nat) : List Nat :=
  natToBytes lst.length (bytesToNat lst >>> num)

/-- Model of `Lcd._generate_char_sequence`: expands one glyph (5 columns plus one
blank spacer column) at integer scale `m` into `m` row-band byte rows of
width `6 * m`.  Mutating loops become folds over `List.range`; list
indexing uses `getD`/`set` (in-range for every index the source touches
when `m > 0`; for `m = 0` all loops are empty, as Python's `range`).  The
scale is received as `Nat`: callers convert the Python int with `toNat`,
matching `range(m)` and `[0] * k` being empty for non-positive values. -/
def generate_char_sequence (c : Char) (m : Nat) : List (List Nat) :=
  let chv := c.toNat
  let seq0 :=
    if LCD_ASCII_BEGIN ≤ chv ∧ chv ≤ LCD_ASCII_MAX then
      LCD_ASCII.getD (chv - LCD_ASCII_BEGIN) char_other
    else char_other
  let seq := seq0 ++ [0x00]
  let start := (List.range m).foldl
    (fun (st : List Nat × List (List Nat)) _ =>
      (st.1.set 0 (((st.1.headD 0) >>> 1) ||| 0x80),
       st.2 ++ [List.replicate (seq.length * m) 0]))
    (List.replicate m 0, [])
  let final := (List.range 8).foldl
    (fun (st : List (List Nat) × List Nat × Nat) _ =>
      let col_mask := st.2.1
      let mask := st.2.2
      let ret_seq2 := (List.range seq.length).foldl
        (fun rs j =>
          let v := seq.getD j 0
          if v &&& mask ≠ 0 then
            (List.range m).foldl
              (fun rs2 k =>
                (List.range m).foldl
                  (fun rs3 l =>
                    let ri := m - k - 1
                    let ci := j * m + l
                    let row := rs3.getD ri []
                    rs3.set ri
                      (row.set ci ((row.getD ci 0) ||| (col_mask.getD k 0))))
                  rs2)
              rs
          else rs)
        st.1
      (ret_seq2, bit_shift_right_byte_list col_mask m, mask >>> 1))
    (start.2, start.1, 0x80)
  final.1

/-- The per-row zero-padding step of `Lcd.write_line` (the body of the
`columnsToAdd > 0` branch, applied to each row of `seq`). -/
def padRow (justification : Nat) (columnsToAdd : Nat) (row : List Nat) :
    List Nat :=
  if justification == JUSTIFY_RIGHT then
    List.replicate columnsToAdd 0 ++ row
  else if justification == JUSTIFY_CENTER then
    let columnsToAddLeft := columnsToAdd / 2
    let columnsToAddRight := columnsToAdd - columnsToAddLeft
    List.replicate columnsToAddLeft 0 ++ row ++
      List.replicate columnsToAddRight 0
  else
    row ++ List.replicate columnsToAdd 0

/-- The per-row cropping step of `Lcd.write_line` (the body of the
`columnsToRemove > 0` branch).  `del row[0:k]` is `drop k`;
`del row[-k:]` (with `k ≥ 1`) is `take (length - k)`. -/
def cropRow (justification : Nat) (columnsToRemove : Nat) (row : List Nat) :
    List Nat :=
  if justification == JUSTIFY_RIGHT then
    row.drop columnsToRemove
  else if justification == JUSTIFY_CENTER then
    let columnsToRemoveLeft := columnsToRemove / 2
    let columnsToRemoveRight := columnsToRemove - columnsToRemoveLeft
    (row.drop columnsToRemoveLeft).take
      (row.length - columnsToRemoveLeft - columnsToRemoveRight)
  else
    row.take (row.length - columnsToRemove)

/-- Result of `Lcd.write_line` / `Lcd.write_block`: the integer return
value, the new driver state and the trace of attempted bus
transactions. -/
structure LineResult where
  ret : Nat
  lcd : Lcd
  trace : List (Nat × List Nat)
  deriving Repr, DecidableEq

/-- Model of `Lcd.write_line`: rejects an out-of-range starting row with return 0;
otherwise replaces an empty string by a single space, renders and
horizontally concatenates the glyph rows, selects the window
`[row_start, min(row_start + size - 1, max_row)]` over the full column
range, pads/truncates rows, pads/crops columns per the justification, and
writes each row as a data sequence, returning 1 regardless of bus
status.  `busOk` is the success flag applied to every bus transaction.
(The source raises `IndexError` on `seq[0]` when
`text_size_multiplier ≤ 0`; this model is total — `getD` — and the
theorems about `write_line` assume a positive size.) -/
def write_line (lcd : Lcd) (str : List Char) (row_start : Int)
    (text_size_multiplier : Int) (justification : Nat) (busOk : Bool) :
    LineResult :=
  if row_start < lcd.min_row_addr ∨ row_start > lcd.max_row_addr then
    ⟨0, lcd, []⟩
  else
    let str := if str.length ≤ 0 then [' '] else str
    let m := text_size_multiplier.toNat
    let seq : List (List Nat) := str.foldl
      (fun seq c =>
        let seqChar := generate_char_sequence c m
        if seq.length ≤ 0 then seqChar
        else seq.zipWith (fun a b => a ++ b) seqChar)
      []
    let row_end0 := row_start + text_size_multiplier - 1
    let row_end :=
      if row_end0 > lcd.max_row_addr then lcd.max_row_addr else row_end0
    let r1 := lcd_set_print_area lcd lcd.min_col_addr lcd.max_col_addr
      row_start row_end busOk
    let lcd := r1.lcd
    let maxNumRows := (lcd.gmax_row - lcd.gmin_row + 1).toNat
    let maxNumCols := (lcd.gmax_col - lcd.gmin_col + 1).toNat
    let seq := seq ++ List.replicate (maxNumRows - seq.length)
      (List.replicate (seq.headD []).length 0)
    let seq := seq.take maxNumRows
    let columnsToAdd : Int := (maxNumCols : Int) - (seq.headD []).length
    let seq :=
      if columnsToAdd > 0 then seq.map (padRow justification columnsToAdd.toNat)
      else seq
    let columnsToRemove : Int := ((seq.headD []).length : Int) - maxNumCols
    let seq :=
      if columnsToRemove > 0 then
        seq.map (cropRow justification columnsToRemove.toNat)
      else seq
    let fin := seq.foldl
      (fun (st : Lcd × List (Nat × List Nat)) row =>
        let r := write_data_sequence st.1 row
          (List.replicate (chunkList 32 row).length busOk)
        (r.lcd, st.2 ++ r.trace))
      (lcd, r1.trace)
    ⟨1, fin.1, fin.2⟩

/-- Python `str.split(" ")` on a list of characters: split at every single
space; consecutive separators produce empty words and the result is never
empty (`"".split(" ") == [""]`). -/
def splitOnSpace : List Char → List (List Char)
  | [] => [[]]
  | c :: rest =>
    let r := splitOnSpace rest
    if c = ' ' then [] :: r
    else
      match r with
      | [] => [[c]]
      | h :: t => (c :: h) :: t

/-- The per-word width estimate of `Lcd.write_block`: the inner loop
`for _ in range(len(words[i])): currentSize += 6`. -/
def wordSize (w : List Char) : Int :=
  (List.range w.length).foldl (fun currentSize _ => currentSize + 6) 0

/-- In-place update of the last element of a list, modelling
`lines[currentLine] += ...` (in `write_block`, `currentLine` is always
the index of the last line). -/
def updateLast {α : Type} : List α → (α → α) → List α
  | [], _ => []
  | [a], f => [f a]
  | a :: b :: rest, f => a :: updateLast (b :: rest) f

/-- Body of the greedy word-wrapping loop of `Lcd.write_block`: for each
further word, either open a new line (when appending the word would
exceed `maxWidth` at this scale, also flagging `lineTooLong` when the
word alone exceeds it) or append `" " + word` to the current (last)
line. -/
def wrapStep (currentTextSize maxWidth : Int)
    (st : List (List Char) × Int × Bool) (w : List Char) :
    List (List Char) × Int × Bool :=
  let lines := st.1
  let currentSize := st.2.1
  let lineTooLong := st.2.2
  let nextSize := currentSize + wordSize w + 6
  if nextSize * currentTextSize > maxWidth then
    let cs := wordSize w
    (lines ++ [w], cs,
     lineTooLong || decide (cs * currentTextSize > maxWidth))
  else
    (updateLast lines (fun line => line ++ [' '] ++ w),
     currentSize + wordSize w + 6, lineTooLong)

/-- Greedy word wrap of `Lcd.write_block` for one candidate text size:
starts with `lines = [words[0]]` and folds `wrapStep` over the remaining
words.  Returns the wrapped lines and the `lineTooLong` flag. -/
def wrapWords (words : List (List Char)) (currentTextSize maxWidth : Int) :
    List (List Char) × Bool :=
  match words with
  | [] => ([], false)
  | w0 :: rest =>
    let st := rest.foldl (wrapStep currentTextSize maxWidth)
      ([w0], wordSize w0, false)
    (st.1, st.2.2)

/-- The scale-search loop of `Lcd.write_block`
(`while currentTextSize > min_text_size: ...`), with explicit fuel (the
loop decrements `currentTextSize` each iteration, so
`(max - min).toNat` steps suffice).  State is
`(currentTextSize, lines, maxLines)`; `maxLines` is the Python-2 floor
division `max_text_size / currentTextSize`.  Stops early when the
wrapped lines fit (`len(lines) <= maxLines and not lineTooLong`). -/
def write_block_search (words : List (List Char))
    (min_text_size max_text_size maxWidth : Int) :
    Nat → Int → List (List Char) → Int → Int × List (List Char) × Int
  | 0, currentTextSize, lines, maxLines => (currentTextSize, lines, maxLines)
  | fuel + 1, currentTextSize, lines, maxLines =>
    if currentTextSize > min_text_size then
      let cts := currentTextSize - 1
      let ml := max_text_size.fdiv cts
      let w := wrapWords words cts maxWidth
      if (w.1.length : Int) ≤ ml ∧ w.2 = false then (cts, w.1, ml)
      else write_block_search words min_text_size max_text_size maxWidth
        fuel cts w.1 ml
    else (currentTextSize, lines, maxLines)

/-- The vertical-centering loop of `Lcd.write_block`
(`while len(lines) + 2 <= maxLines: lines = [""] + lines + [""]`), with
fuel (each iteration grows the list by two, so `maxLines.toNat` steps
reach the loop's fixed point). -/
def centerLoop (maxLines : Int) : Nat → List (List Char) → List (List Char)
  | 0, lines => lines
  | fuel + 1, lines =>
    if (lines.length : Int) + 2 ≤ maxLines then
      centerLoop maxLines fuel ([] :: lines ++ [[]])
    else lines

/-- Python `range(a, b)` over integers. -/
def intRange (a b : Int) : List Int :=
  (List.range (b - a).toNat).map (fun i => a + i)

/-- Model of `Lcd.write_block`: rejects invalid size bounds with return 0;
estimates the single-line width (6 units per character and per
inter-word space); if the text fits at `max_text_size`, the bounds are
equal, or the text is empty, delegates to `write_line` at
`max_text_size`; otherwise searches scales downward, wraps words,
vertically centers / truncates the lines, prints each line via
`write_line` (stepping the row by the chosen scale) and blanks the
remaining rows up to `row_start + max_text_size`, returning the number
of lines `write_line` reported printed. -/
def write_block (lcd : Lcd) (str : List Char) (row_start : Int)
    (min_text_size max_text_size : Int) (justification : Nat)
    (busOk : Bool) : LineResult :=
  if min_text_size > max_text_size ∨ min_text_size ≤ 0 ∨
      max_text_size ≤ 0 then
    ⟨0, lcd, []⟩
  else
    let maxWidth := lcd.max_col_addr - lcd.min_col_addr + 1
    let words := splitOnSpace str
    let numberOfSpaces : Int := (words.length : Int) - 1
    let totalSize := words.foldl (fun t w => t + wordSize w)
      (numberOfSpaces * 6)
    if totalSize * max_text_size ≤ maxWidth ∨
        min_text_size = max_text_size ∨ (str.length : Int) ≤ 0 then
      write_line lcd str row_start max_text_size justification busOk
    else
      let r := write_block_search words min_text_size max_text_size maxWidth
        (max_text_size - min_text_size).toNat max_text_size [] 0
      let currentTextSize := r.1
      let maxLines := r.2.2
      let lines := centerLoop maxLines maxLines.toNat r.2.1
      let lines :=
        if (lines.length : Int) > maxLines then lines.take maxLines.toNat
        else lines
      let fin := lines.foldl
        (fun (st : Lcd × List (Nat × List Nat) × Nat × Int) l =>
          let w := write_line st.1 l st.2.2.2 currentTextSize justification
            busOk
          (w.lcd, st.2.1 ++ w.trace, st.2.2.1 + w.ret,
           st.2.2.2 + currentTextSize))
        (lcd, [], 0, row_start)
      let fin2 := (intRange fin.2.2.2 (row_start + max_text_size)).foldl
        (fun (st : Lcd × List (Nat × List Nat)) i =>
          let w := write_line st.1 [] i 1 JUSTIFY_LEFT busOk
          (w.lcd, st.2 ++ w.trace))
        (fin.1, fin.2.1)
      ⟨fin.2.2.1, fin2.1, fin2.2⟩

/-- One custom-display request: the fields `LcdPlugin._display_custom`
reads from the queued dictionary, with their `.get` defaults already
resolved (`txt` "", `row_start` 0, `min_text_size`/`max_text_size` 1,
`justification` "LEFT", `append` False, `delay` 1, `cancel` False). -/
structure DisplayItem where
  txt : List Char := []
  row_start : Int := 0
  min_text_size : Int := 1
  max_text_size : Int := 1
  justification : List Char := ['L', 'E', 'F', 'T']
  append : Bool := false
  delay : Int := 1
  cancel : Bool := false
  deriving Repr, DecidableEq

/-- The scheduler state touched by the custom-display path of
`LcdPlugin`: the shared queue plus the `_displaying_custom` and
`_custom_display_canceled` flags. -/
structure LcdPlugin where
  custom_display_queue : List DisplayItem
  displaying_custom : Bool
  custom_display_canceled : Bool
  deriving Repr, DecidableEq

/-- Model of `LcdPlugin.__init__`: empty queue, not displaying custom content. -/
def LcdPlugin.init : LcdPlugin :=
  { custom_display_queue := []
    displaying_custom := false
    custom_display_canceled := false }

/-- Model of `LcdPlugin.display_signal`: the producer inserts the request at the
*front* of the shared list (`self._custom_display_queue.insert(0, kw)`). -/
def display_signal (p : LcdPlugin) (item : DisplayItem) : LcdPlugin :=
  { p with custom_display_queue := item :: p.custom_display_queue }

/-- What one processed queue item did during a tick: either the
cancel branch (no render) or a render with the effective `append`
(forced to `False` when not already displaying custom content or when
the previous item was canceled); the render stands for the source's
`clear()` (unless appending) followed by
`write_block(txt, row_start, min_text_size, max_text_size,
justification)` and a display wake. -/
inductive CustomEvent where
  | canceledMark
  | rendered (item : DisplayItem) (effectiveAppend : Bool)
  deriving Repr, DecidableEq

/-- The body of `LcdPlugin._display_custom`:
`while self._custom_display_queue:` pops the *last* element of the list,
then either handles the cancel branch (set
`_custom_display_canceled`, `delay = 0`) or renders the item
(effective append as above, set `_displaying_custom`, clear
`_custom_display_canceled`, `delay` from the item).  Fuel is the queue
length: each iteration removes exactly one element and nothing is
enqueued inside the loop in this sequential model.  Returns the final
state, the processed items in pop order, the event trace and the last
assigned `delay`. -/
def display_custom_loop :
    Nat → LcdPlugin → List DisplayItem → List CustomEvent → Int →
    LcdPlugin × List DisplayItem × List CustomEvent × Int
  | 0, p, processed, events, delay => (p, processed, events, delay)
  | fuel + 1, p, processed, events, delay =>
    match p.custom_display_queue.getLast? with
    | none => (p, processed, events, delay)
    | some queue_item =>
      let p1 := { p with
        custom_display_queue := p.custom_display_queue.dropLast }
      if queue_item.cancel = false then
        let append := queue_item.append &&
          (p1.displaying_custom && !p1.custom_display_canceled)
        let p2 := { p1 with
          displaying_custom := true
          custom_display_canceled := false }
        display_custom_loop fuel p2 (processed ++ [queue_item])
          (events ++ [CustomEvent.rendered queue_item append])
          queue_item.delay
      else
        let p2 := { p1 with custom_display_canceled := true }
        display_custom_loop fuel p2 (processed ++ [queue_item])
          (events ++ [CustomEvent.canceledMark]) 0

/-- Model of `LcdPlugin._display_custom`, entered by `run` on a tick whose queue
is non-empty (`run` initializes `wait_time = 1`, hence the initial
delay). -/
def display_custom (p : LcdPlugin) :
    LcdPlugin × List DisplayItem × List CustomEvent × Int :=
  display_custom_loop p.custom_display_queue.length p [] [] 1

/-! ## Window and cursor predicates -/

/-- Validity of the recorded view range: a non-empty rectangle. -/
abbrev Lcd.windowValid (lcd : Lcd) : Prop :=
  lcd.gmin_col ≤ lcd.gmax_col ∧ lcd.gmin_row ≤ lcd.gmax_row

/-- Statement that the write cursor lies inside the recorded view
range. -/
abbrev Lcd.cursorInWindow (lcd : Lcd) : Prop :=
  lcd.gmin_col ≤ lcd.current_col ∧ lcd.current_col ≤ lcd.gmax_col ∧
  lcd.gmin_row ≤ lcd.current_row ∧ lcd.current_row ≤ lcd.gmax_row

/-- Statement that two driver states record the same view range. -/
abbrev windowEq (a b : Lcd) : Prop :=
  a.gmin_col = b.gmin_col ∧ a.gmax_col = b.gmax_col ∧
  a.gmin_row = b.gmin_row ∧ a.gmax_row = b.gmax_row

/-- Statement that two driver states record the same view range and the
same cursor. -/
abbrev sameWindowCursor (a b : Lcd) : Prop :=
  windowEq a b ∧ a.current_col = b.current_col ∧
  a.current_row = b.current_row

theorem lcd_increment_current_windowEq (lcd : Lcd) (x : Int) :
    windowEq (lcd_increment_current lcd x) lcd :=
  ⟨rfl, rfl, rfl, rfl⟩

/-- Whatever the increment amount, the cursor written back by
`_lcd_increment_current` lies inside the (valid) view range, because both
components are reduced modulo the window dimensions and offset by the
window minima. -/
theorem cursorInWindow_increment (lcd : Lcd) (x : Int)
    (h : lcd.windowValid) : (lcd_increment_current lcd x).cursorInWindow := by
  obtain ⟨h1, h2⟩ := h
  have hcpos : (0 : Int) < lcd.gmax_col - lcd.gmin_col + 1 := by omega
  have hrpos : (0 : Int) < lcd.gmax_row - lcd.gmin_row + 1 := by omega
  have m1 := Int.fmod_nonneg' (lcd.current_col + x) hcpos
  have m2 := Int.fmod_lt_of_pos (lcd.current_col + x) hcpos
  have m3 := Int.fmod_nonneg'
    ((lcd.current_col + x).fdiv (lcd.gmax_col - lcd.gmin_col + 1) +
      lcd.current_row) hrpos
  have m4 := Int.fmod_lt_of_pos
    ((lcd.current_col + x).fdiv (lcd.gmax_col - lcd.gmin_col + 1) +
      lcd.current_row) hrpos
  unfold lcd_increment_current
  refine ⟨?_, ?_, ?_, ?_⟩ <;> simp only [] <;> omega

/-! ## The data-write step relation for the window invariant -/

/-- One data write as the window manager sees it: either a single data
byte (`_write_data_byte`) or a data sequence (`_write_data_sequence`),
each with its bus success flag(s). -/
inductive DWrite where
  | byte (b : Nat) (ok : Bool)
  | seq (s : List Nat) (oks : List Bool)

/-- Application of one data write to the driver state. -/
def applyDWrite (lcd : Lcd) : DWrite → Lcd
  | DWrite.byte b ok => (write_data_byte lcd b ok).lcd
  | DWrite.seq s oks => (write_data_sequence lcd s oks).lcd

/-- Application of a list of data writes, in order. -/
def applyDWrites (lcd : Lcd) (ws : List DWrite) : Lcd :=
  ws.foldl applyDWrite lcd

theorem write_sequence_step_invariant (cmd n : Nat)
    (st : Bool × Lcd × List Bool) (c : List Nat)
    (hv : st.2.1.windowValid) (hc : st.2.1.cursorInWindow) :
    windowEq (write_sequence_step cmd n st c).2.1 st.2.1 ∧
    (write_sequence_step cmd n st c).2.1.cursorInWindow := by
  unfold write_sequence_step
  by_cases hok : st.2.2.headD false = true
  · simp only [hok, if_true]
    by_cases hcmd : (cmd == DATA_BYTE) = true
    · simp only [hcmd, if_true]
      exact ⟨lcd_increment_current_windowEq _ _,
        cursorInWindow_increment _ _ hv⟩
    · simp only [hcmd, if_false]
      exact ⟨⟨rfl, rfl, rfl, rfl⟩, hc⟩
  · simp only [Bool.not_eq_true] at hok
    simp only [hok, if_false]
    exact ⟨⟨rfl, rfl, rfl, rfl⟩, hc⟩

theorem write_sequence_fold_invariant (cmd n : Nat) :
    ∀ (chunks : List (List Nat)) (st : Bool × Lcd × List Bool),
      st.2.1.windowValid → st.2.1.cursorInWindow →
      windowEq ((chunks.foldl (write_sequence_step cmd n) st).2.1) st.2.1 ∧
      ((chunks.foldl (write_sequence_step cmd n) st).2.1.cursorInWindow) := by
  intro chunks
  induction chunks with
  | nil => intro st hv hc; exact ⟨⟨rfl, rfl, rfl, rfl⟩, hc⟩
  | cons c cs ih =>
    intro st hv hc
    have h1 := write_sequence_step_invariant cmd n st c hv hc
    have hv2 : (write_sequence_step cmd n st c).2.1.windowValid := by
      obtain ⟨⟨e1, e2, e3, e4⟩, _⟩ := h1
      obtain ⟨g1, g2⟩ := hv
      constructor <;> omega
    have h2 := ih (write_sequence_step cmd n st c) hv2 h1.2
    simp only [List.foldl_cons]
    obtain ⟨⟨e1, e2, e3, e4⟩, hcw⟩ := h2
    obtain ⟨⟨f1, f2, f3, f4⟩, _⟩ := h1
    exact ⟨⟨e1.trans f1, e2.trans f2, e3.trans f3, e4.trans f4⟩, hcw⟩

theorem applyDWrite_invariant (lcd : Lcd) (w : DWrite)
    (hv : lcd.windowValid) (hc : lcd.cursorInWindow) :
    windowEq (applyDWrite lcd w) lcd ∧ (applyDWrite lcd w).cursorInWindow := by
  cases w with
  | byte b ok =>
    unfold applyDWrite write_data_byte
    by_cases he : lcd.enabled = true
    · simp only [he, if_true]
      by_cases hok : ok = true
      · simp only [hok, if_true]
        exact ⟨lcd_increment_current_windowEq _ _,
          cursorInWindow_increment _ _ hv⟩
      · simp only [Bool.not_eq_true] at hok
        simp only [hok, if_false]
        exact ⟨⟨rfl, rfl, rfl, rfl⟩, hc⟩
    · simp only [Bool.not_eq_true] at he
      simp only [he, if_false]
      exact ⟨⟨rfl, rfl, rfl, rfl⟩, hc⟩
  | seq s oks =>
    unfold applyDWrite write_data_sequence write_sequence
    by_cases he : lcd.enabled = true
    · simp only [he, if_true]
      exact write_sequence_fold_invariant DATA_BYTE s.length
        (chunkList 32 s) (false, lcd, oks) hv hc
    · simp only [Bool.not_eq_true] at he
      simp only [he, if_false]
      exact ⟨⟨rfl, rfl, rfl, rfl⟩, hc⟩

theorem applyDWrites_invariant (ws : List DWrite) :
    ∀ (lcd : Lcd), lcd.windowValid → lcd.cursorInWindow →
      windowEq (applyDWrites lcd ws) lcd ∧
      (applyDWrites lcd ws).cursorInWindow := by
  induction ws with
  | nil => intro lcd hv hc; exact ⟨⟨rfl, rfl, rfl, rfl⟩, hc⟩
  | cons w ws ih =>
    intro lcd hv hc
    have h1 := applyDWrite_invariant lcd w hv hc
    have hv2 : (applyDWrite lcd w).windowValid := by
      obtain ⟨⟨e1, e2, e3, e4⟩, _⟩ := h1
      obtain ⟨g1, g2⟩ := hv
      constructor <;> omega
    have h2 := ih (applyDWrite lcd w) hv2 h1.2
    unfold applyDWrites at h2 ⊢
    simp only [List.foldl_cons]
    obtain ⟨⟨e1, e2, e3, e4⟩, hcw⟩ := h2
    obtain ⟨⟨f1, f2, f3, f4⟩, _⟩ := h1
    exact ⟨⟨e1.trans f1, e2.trans f2, e3.trans f3, e4.trans f4⟩, hcw⟩

theorem set_print_area_valid_state (lcd : Lcd)
    (min_col max_col min_row max_row : Int) (busOk : Bool)
    (h1 : 0 ≤ min_col) (h2 : min_col ≤ max_col)
    (h3 : max_col ≤ lcd.max_col_addr)
    (h4 : 0 ≤ min_row) (h5 : min_row ≤ max_row)
    (h6 : max_row ≤ lcd.max_row_addr) :
    (lcd_set_print_area lcd min_col max_col min_row max_row busOk).lcd.gmin_col
      = min_col ∧
    (lcd_set_print_area lcd min_col max_col min_row max_row busOk).lcd.gmax_col
      = max_col ∧
    (lcd_set_print_area lcd min_col max_col min_row max_row busOk).lcd.gmin_row
      = min_row ∧
    (lcd_set_print_area lcd min_col max_col min_row max_row busOk).lcd.gmax_row
      = max_row ∧
    (lcd_set_print_area lcd min_col max_col min_row max_row busOk).lcd.current_col
      = min_col ∧
    (lcd_set_print_area lcd min_col max_col min_row max_row busOk).lcd.current_row
      = min_row := by
  unfold lcd_set_print_area
  rw [if_neg (by omega), if_neg (by omega)]
  exact ⟨rfl, rfl, rfl, rfl, rfl, rfl⟩

/-- C2: for every valid window selected via `_lcd_set_print_area`
(whether or not its control sequence reached the device) and every
subsequent sequence of data-byte and data-sequence writes with arbitrary
per-transaction bus outcomes, the cursor stays inside the selected
rectangle. -/
theorem C2_cursor_never_escapes_window (lcd0 : Lcd)
    (min_col max_col min_row max_row : Int) (busOk : Bool)
    (ws : List DWrite)
    (h1 : 0 ≤ min_col) (h2 : min_col ≤ max_col)
    (h3 : max_col ≤ lcd0.max_col_addr)
    (h4 : 0 ≤ min_row) (h5 : min_row ≤ max_row)
    (h6 : max_row ≤ lcd0.max_row_addr) :
    min_col ≤ (applyDWrites
        (lcd_set_print_area lcd0 min_col max_col min_row max_row busOk).lcd
        ws).current_col ∧
    (applyDWrites
        (lcd_set_print_area lcd0 min_col max_col min_row max_row busOk).lcd
        ws).current_col ≤ max_col ∧
    min_row ≤ (applyDWrites
        (lcd_set_print_area lcd0 min_col max_col min_row max_row busOk).lcd
        ws).current_row ∧
    (applyDWrites
        (lcd_set_print_area lcd0 min_col max_col min_row max_row busOk).lcd
        ws).current_row ≤ max_row := by
  obtain ⟨e1, e2, e3, e4, e5, e6⟩ := set_print_area_valid_state lcd0
    min_col max_col min_row max_row busOk h1 h2 h3 h4 h5 h6
  set lcd1 := (lcd_set_print_area lcd0 min_col max_col min_row max_row
    busOk).lcd with hlcd1
  have hv : lcd1.windowValid := by constructor <;> omega
  have hc : lcd1.cursorInWindow := by
    refine ⟨?_, ?_, ?_, ?_⟩ <;> omega
  obtain ⟨⟨w1, w2, w3, w4⟩, ⟨c1, c2, c3, c4⟩⟩ :=
    applyDWrites_invariant ws lcd1 hv hc
  refine ⟨?_, ?_, ?_, ?_⟩ <;> omega

/-- Closed instance of `C2_cursor_never_escapes_window`: a concrete
offset window `(10..20) × (1..3)` on a 128×64 device, one data byte and
one three-byte data sequence. -/
theorem C2_cursor_never_escapes_window_witness :
    (10 : Int) ≤ (applyDWrites
        (lcd_set_print_area (Lcd.init 128 64) 10 20 1 3 true).lcd
        [DWrite.byte 5 true, DWrite.seq [1, 2, 3] [true]]).current_col ∧
    (applyDWrites (lcd_set_print_area (Lcd.init 128 64) 10 20 1 3 true).lcd
        [DWrite.byte 5 true, DWrite.seq [1, 2, 3] [true]]).current_col ≤ 20 ∧
    (1 : Int) ≤ (applyDWrites
        (lcd_set_print_area (Lcd.init 128 64) 10 20 1 3 true).lcd
        [DWrite.byte 5 true, DWrite.seq [1, 2, 3] [true]]).current_row ∧
    (applyDWrites (lcd_set_print_area (Lcd.init 128 64) 10 20 1 3 true).lcd
        [DWrite.byte 5 true, DWrite.seq [1, 2, 3] [true]]).current_row ≤ 3 :=
  C2_cursor_never_escapes_window (Lcd.init 128 64) 10 20 1 3 true
    [DWrite.byte 5 true, DWrite.seq [1, 2, 3] [true]]
    (by decide) (by decide) (by decide) (by decide) (by decide) (by decide)

/-- C3 evaluation at the failing input: on a 128×64 device select the
window `(0..127) × (3..4)` (cursor at `(0, 3)`) and write one data byte
successfully.  The cursor becomes `(1, 4)`: the column advanced by one
without wrapping, yet the row-band also advanced — strict row-major
stepping (which would give `(1, 3)`) is violated because
`_lcd_increment_current` adds `gmin_row` into the value it reduces
modulo the row count. -/
theorem C3_failing_input_evaluation :
    (write_data_byte
        (lcd_set_print_area (Lcd.init 128 64) 0 127 3 4 true).lcd
        0 true).lcd.current_col = 1 ∧
    (write_data_byte
        (lcd_set_print_area (Lcd.init 128 64) 0 127 3 4 true).lcd
        0 true).lcd.current_row = 4 := by decide

/-! ## Chunking lemmas and C8 -/

theorem chunkList32_join_aux :
    ∀ (m : Nat) (l : List Nat), m = (l.length + 31) / 32 →
      ((List.range m).map (fun i => (l.drop (i * 32)).take 32)).flatten = l := by
  intro m
  induction m with
  | zero =>
    intro l hm
    have hl : l.length = 0 := by omega
    rw [List.eq_nil_of_length_eq_zero hl]
    simp
  | succ m ih =>
    intro l hm
    rw [List.range_succ_eq_map]
    simp only [List.map_cons, Nat.zero_mul, List.drop_zero, List.map_map,
      List.flatten_cons]
    have hcomp : ((fun i => (l.drop (i * 32)).take 32) ∘ Nat.succ) =
        (fun i => ((l.drop 32).drop (i * 32)).take 32) := by
      funext i
      simp only [Function.comp_apply, List.drop_drop]
      congr 2
      omega
    rw [hcomp, ih (l.drop 32) (by simp only [List.length_drop]; omega)]
    exact List.take_append_drop 32 l

theorem chunkList32_join (l : List Nat) : (chunkList 32 l).flatten = l := by
  unfold chunkList
  rw [if_neg (by decide)]
  exact chunkList32_join_aux ((l.length + 32 - 1) / 32) l (by omega)

theorem chunkList32_chunk_le (l : List Nat) :
    ∀ c ∈ chunkList 32 l, c.length ≤ 32 := by
  intro c hc
  unfold chunkList at hc
  rw [if_neg (by decide)] at hc
  simp only [List.mem_map] at hc
  obtain ⟨i, _, rfl⟩ := hc
  simp only [List.length_take]
  omega

theorem chunkList32_length (l : List Nat) :
    (chunkList 32 l).length = (l.length + 31) / 32 := by
  unfold chunkList
  rw [if_neg (by decide)]
  simp only [List.length_map, List.length_range]
  omega

theorem write_sequence_fold_all_ok (len : Nat) :
    ∀ (chunks : List (List Nat)) (lcd : Lcd) (b : Bool),
      ((chunks.foldl (write_sequence_step DATA_BYTE len)
        (b, lcd, List.replicate chunks.length true)).2.1) =
      (fun l => lcd_increment_current l (Int.ofNat len))^[chunks.length]
        lcd := by
  intro chunks
  induction chunks with
  | nil => intro lcd b; simp
  | cons c cs ih =>
    intro lcd b
    simp only [List.length_cons, List.replicate_succ, List.foldl_cons]
    have hstep : write_sequence_step DATA_BYTE len
        (b, lcd, true :: List.replicate cs.length true) c =
        (true, lcd_increment_current lcd (Int.ofNat len),
         List.replicate cs.length true) := by
      unfold write_sequence_step
      simp
    rw [hstep, ih]
    exact (Function.iterate_succ_apply _ _ _).symm

/-- C8: a data sequence of length `L` is transmitted by
`_write_sequence` as the consecutive slices `chunkList 32`, whose
concatenation is the original sequence, each at most 32 bytes, with
`⌈L/32⌉` bus transactions (the trace has exactly one entry per chunk);
and with every chunk succeeding, the cursor is advanced by the full
original length `L` once per chunk, i.e. `⌈L/32⌉` iterations of
`_lcd_increment_current L` — not one column per byte. -/
theorem C8_sequence_chunking (lcd : Lcd) (s : List Nat)
    (h : lcd.enabled = true) :
    (∀ c ∈ chunkList 32 s, c.length ≤ 32) ∧
    (chunkList 32 s).flatten = s ∧
    (chunkList 32 s).length = (s.length + 31) / 32 ∧
    (write_sequence lcd DATA_BYTE s
        (List.replicate (chunkList 32 s).length true)).trace =
      (chunkList 32 s).map (fun c => (DATA_BYTE, c)) ∧
    (write_sequence lcd DATA_BYTE s
        (List.replicate (chunkList 32 s).length true)).lcd =
      (fun l => lcd_increment_current l
        (Int.ofNat s.length))^[(chunkList 32 s).length] lcd := by
  refine ⟨chunkList32_chunk_le s, chunkList32_join s, chunkList32_length s,
    ?_, ?_⟩
  · unfold write_sequence
    rw [if_pos h]
  · unfold write_sequence
    rw [if_pos h]
    exact write_sequence_fold_all_ok s.length (chunkList 32 s) lcd false

/-- Closed instance of `C8_sequence_chunking`: a 40-byte data sequence
on a fresh 128×64 device (two chunks, cursor advanced by 40 twice). -/
theorem C8_sequence_chunking_witness :
    (chunkList 32 (List.replicate 40 7)).flatten = List.replicate 40 7 ∧
    (write_sequence (Lcd.init 128 64) DATA_BYTE (List.replicate 40 7)
        (List.replicate (chunkList 32 (List.replicate 40 7)).length
          true)).lcd =
      (fun l => lcd_increment_current l
        (Int.ofNat (List.replicate 40 (7 : Nat)).length))^[
          (chunkList 32 (List.replicate 40 7)).length] (Lcd.init 128 64) :=
  ⟨(C8_sequence_chunking (Lcd.init 128 64) (List.replicate 40 7) rfl).2.1,
   (C8_sequence_chunking (Lcd.init 128 64)
      (List.replicate 40 7) rfl).2.2.2.2⟩

/-! ## C1: center-justification pad/crop split -/

/-- C1 counterexample: on a 7-column-wide device the assembled content
for the one-character string of code point 63 at scale 1 is 6 columns,
narrower than the window by 1 = 2·0+1 (so k = 0).  The claim demands
k+1 = 1 zero pad column on the left side; `write_line` actually pads 0
columns on the left and 1 on the right: the data row written is the
glyph bytes followed by one zero, and the left-padded row the claim
demands is never written. -/
theorem C1_counterexample :
    (write_line (Lcd.init 7 8) ['?'] 0 1 JUSTIFY_CENTER true).trace =
      [(CONTROL_BYTE, [0x21, 0, 6, 0x22, 0, 0]),
       (DATA_BYTE, [0x02, 0x01, 0x51, 0x09, 0x06, 0x00, 0x00])] ∧
    (DATA_BYTE, [0x00, 0x02, 0x01, 0x51, 0x09, 0x06, 0x00]) ∉
      (write_line (Lcd.init 7 8) ['?'] 0 1 JUSTIFY_CENTER true).trace := by
  decide

/-- C1 (amended): `write_line`'s center justification splits an odd
total adjustment `2k+1` with the extra column on the *right* in both
directions: padding (`padRow`, the `columnsToAdd > 0` branch) adds `k`
zero columns on the left and `k+1` on the right; cropping (`cropRow`,
the `columnsToRemove > 0` branch) removes `k` columns from the left and
`k+1` from the right. -/
theorem C1_center_split_amended (row : List Nat) (k : Nat) :
    padRow JUSTIFY_CENTER (2 * k + 1) row =
      List.replicate k 0 ++ row ++ List.replicate (k + 1) 0 ∧
    cropRow JUSTIFY_CENTER (2 * k + 1) row =
      (row.drop k).take (row.length - (2 * k + 1)) := by
  have h1 : (2 * k + 1) / 2 = k := by omega
  have h2 : 2 * k + 1 - k = k + 1 := by omega
  constructor
  · simp only [padRow, JUSTIFY_CENTER, JUSTIFY_RIGHT]
    rw [if_neg (by decide), if_pos (by decide), h1, h2]
  · simp only [cropRow, JUSTIFY_CENTER, JUSTIFY_RIGHT]
    rw [if_neg (by decide), if_pos (by decide), h1, h2]
    congr 1
    omega

/-! ## C4: state on transport failure -/

theorem write_sequence_fold_all_fail (cmd n : Nat) :
    ∀ (chunks : List (List Nat)) (st : Bool × Lcd × List Bool),
      (∀ o ∈ st.2.2, o = false) →
      (chunks.foldl (write_sequence_step cmd n) st).1 = st.1 ∧
      sameWindowCursor ((chunks.foldl (write_sequence_step cmd n) st).2.1)
        st.2.1 := by
  intro chunks
  induction chunks with
  | nil =>
    intro st h
    exact ⟨rfl, ⟨⟨rfl, rfl, rfl, rfl⟩, rfl, rfl⟩⟩
  | cons c cs ih =>
    intro st h
    have hok : st.2.2.headD false = false := by
      cases hst : st.2.2 with
      | nil => rfl
      | cons o os =>
        have := h o (by rw [hst]; exact List.mem_cons_self o os)
        simp [hst, this]
    have hstep : write_sequence_step cmd n st c =
        (st.1, { st.2.1 with write_failure := true }, st.2.2.tail) := by
      unfold write_sequence_step
      rw [hok]
      simp
    have htail : ∀ o ∈ st.2.2.tail, o = false :=
      fun o ho => h o (List.mem_of_mem_tail ho)
    simp only [List.foldl_cons, hstep]
    exact ih (st.1, { st.2.1 with write_failure := true }, st.2.2.tail) htail

theorem write_sequence_all_fail (lcd : Lcd) (cmd : Nat) (s : List Nat)
    (oks : List Bool) (h : ∀ o ∈ oks, o = false) :
    (write_sequence lcd cmd s oks).status = false ∧
    sameWindowCursor (write_sequence lcd cmd s oks).lcd lcd := by
  unfold write_sequence
  by_cases he : lcd.enabled = true
  · rw [if_pos he]
    exact write_sequence_fold_all_fail cmd s.length (chunkList 32 s)
      (false, lcd, oks) h
  · rw [if_neg he]
    exact ⟨rfl, ⟨⟨rfl, rfl, rfl, rfl⟩, rfl, rfl⟩⟩

/-- C4 counterexample: a window-select call with valid arguments whose
control-sequence transmission fails returns the failure status but does
*not* leave the window state unchanged — the recorded view range and
cursor move to the requested window anyway. -/
theorem C4_counterexample :
    (lcd_set_print_area (Lcd.init 128 64) 5 10 1 2 false).status = false ∧
    (lcd_set_print_area (Lcd.init 128 64) 5 10 1 2 false).lcd.gmin_col = 5 ∧
    (lcd_set_print_area (Lcd.init 128 64) 5 10 1 2 false).lcd.current_col
      = 5 ∧
    (Lcd.init 128 64).gmin_col = 0 ∧
    (Lcd.init 128 64).current_col = 0 := by
  decide

/-- C4 (amended): on bus failure, a data-byte write returns failure and
leaves the view range and cursor exactly unchanged; a control-byte
write never touches them; a sequence write all of whose transactions
fail returns failure and leaves them unchanged; but a window-select
call with valid arguments whose transmission fails still records the
new window and resets the cursor to `(min_col, min_row)` while
returning the failure status. -/
theorem C4_failure_state_amended :
    (∀ (lcd : Lcd) (b : Nat),
      (write_data_byte lcd b false).status = false ∧
      sameWindowCursor (write_data_byte lcd b false).lcd lcd) ∧
    (∀ (lcd : Lcd) (byte : Nat) (force busOk : Bool),
      sameWindowCursor (write_control_byte lcd byte force busOk).lcd lcd) ∧
    (∀ (lcd : Lcd) (cmd : Nat) (s : List Nat) (oks : List Bool),
      (∀ o ∈ oks, o = false) →
      (write_sequence lcd cmd s oks).status = false ∧
      sameWindowCursor (write_sequence lcd cmd s oks).lcd lcd) ∧
    (∀ (lcd : Lcd) (min_col max_col min_row max_row : Int),
      0 ≤ min_col → min_col ≤ max_col → max_col ≤ lcd.max_col_addr →
      0 ≤ min_row → min_row ≤ max_row → max_row ≤ lcd.max_row_addr →
      (lcd_set_print_area lcd min_col max_col min_row max_row false).status
        = false ∧
      (lcd_set_print_area lcd min_col max_col min_row max_row
        false).lcd.gmin_col = min_col ∧
      (lcd_set_print_area lcd min_col max_col min_row max_row
        false).lcd.gmax_col = max_col ∧
      (lcd_set_print_area lcd min_col max_col min_row max_row
        false).lcd.gmin_row = min_row ∧
      (lcd_set_print_area lcd min_col max_col min_row max_row
        false).lcd.gmax_row = max_row ∧
      (lcd_set_print_area lcd min_col max_col min_row max_row
        false).lcd.current_col = min_col ∧
      (lcd_set_print_area lcd min_col max_col min_row max_row
        false).lcd.current_row = min_row) := by
  refine ⟨?_, ?_, ?_, ?_⟩
  · intro lcd b
    unfold write_data_byte
    by_cases he : lcd.enabled = true
    · rw [if_pos he]
      exact ⟨rfl, ⟨⟨rfl, rfl, rfl, rfl⟩, rfl, rfl⟩⟩
    · rw [if_neg he]
      exact ⟨rfl, ⟨⟨rfl, rfl, rfl, rfl⟩, rfl, rfl⟩⟩
  · intro lcd byte force busOk
    unfold write_control_byte
    by_cases he : (lcd.enabled || force) = true
    · rw [if_pos he]
      cases busOk
      · exact ⟨⟨rfl, rfl, rfl, rfl⟩, rfl, rfl⟩
      · exact ⟨⟨rfl, rfl, rfl, rfl⟩, rfl, rfl⟩
    · rw [if_neg he]
      exact ⟨⟨rfl, rfl, rfl, rfl⟩, rfl, rfl⟩
  · intro lcd cmd s oks h
    exact write_sequence_all_fail lcd cmd s oks h
  · intro lcd min_col max_col min_row max_row h1 h2 h3 h4 h5 h6
    have hst := write_sequence_all_fail lcd CONTROL_BYTE
      [0x21, min_col.toNat, max_col.toNat, 0x22, min_row.toNat,
        max_row.toNat]
      (List.replicate (chunkList 32 [0x21, min_col.toNat, max_col.toNat,
        0x22, min_row.toNat, max_row.toNat]).length false)
      (fun o ho => List.eq_of_mem_replicate ho)
    unfold lcd_set_print_area
    rw [if_neg (by omega), if_neg (by omega)]
    exact ⟨hst.1, rfl, rfl, rfl, rfl, rfl, rfl⟩

/-- Closed instance of `C4_failure_state_amended` at concrete inputs. -/
theorem C4_failure_state_amended_witness :
    ((write_data_byte (Lcd.init 128 64) 7 false).status = false ∧
      sameWindowCursor (write_data_byte (Lcd.init 128 64) 7 false).lcd
        (Lcd.init 128 64)) ∧
    (write_sequence (Lcd.init 128 64) DATA_BYTE [1, 2, 3] [false]).status
      = false ∧
    (lcd_set_print_area (Lcd.init 128 64) 0 10 0 2 false).status = false ∧
    (lcd_set_print_area (Lcd.init 128 64) 0 10 0 2 false).lcd.current_col
      = 0 := by
  have h := C4_failure_state_amended
  refine ⟨h.1 (Lcd.init 128 64) 7, ?_, ?_, ?_⟩
  · exact (h.2.2.1 (Lcd.init 128 64) DATA_BYTE [1, 2, 3] [false]
      (by decide)).1
  · exact (h.2.2.2 (Lcd.init 128 64) 0 10 0 2 (by decide) (by decide)
      (by decide) (by decide) (by decide) (by decide)).1
  · exact (h.2.2.2 (Lcd.init 128 64) 0 10 0 2 (by decide) (by decide)
      (by decide) (by decide) (by decide) (by decide)).2.2.2.2.2.1

/-! ## C5 and C6: custom-message queue discipline -/

theorem display_custom_loop_spec :
    ∀ (fuel : Nat) (p : LcdPlugin) (processed : List DisplayItem)
      (events : List CustomEvent) (delay : Int),
      p.custom_display_queue.length ≤ fuel →
      (display_custom_loop fuel p processed events
        delay).1.custom_display_queue = [] ∧
      (display_custom_loop fuel p processed events delay).2.1 =
        processed ++ p.custom_display_queue.reverse := by
  intro fuel
  induction fuel with
  | zero =>
    intro p processed events delay hlen
    have hq : p.custom_display_queue = [] := by
      cases h : p.custom_display_queue with
      | nil => rfl
      | cons a l => rw [h] at hlen; simp at hlen
    unfold display_custom_loop
    simp [hq]
  | succ fuel ih =>
    intro p processed events delay hlen
    rcases List.eq_nil_or_concat p.custom_display_queue with hq | ⟨l, a, hq⟩
    · unfold display_custom_loop
      simp [hq]
    · rw [List.concat_eq_append] at hq
      have hlast : p.custom_display_queue.getLast? = some a := by
        rw [hq]; exact List.getLast?_concat l
      have hdrop : p.custom_display_queue.dropLast = l := by
        rw [hq]; exact List.dropLast_concat
      have hlen2 : l.length ≤ fuel := by
        rw [hq] at hlen; simp at hlen; omega
      have hrev : p.custom_display_queue.reverse = a :: l.reverse := by
        rw [hq]; simp
      unfold display_custom_loop
      split
      · next heq =>
        rw [hlast] at heq
        cases heq
      · next queue_item heq =>
        rw [hlast] at heq
        injection heq with heq
        subst heq
        split
        · next _ =>
          constructor
          · exact (ih _ _ _ _ (by simp only [hdrop]; omega)).1
          · refine ((ih _ _ _ _ ?_).2).trans ?_
            · simp only [hdrop]; omega
            · simp [hdrop, hrev]
        · next _ =>
          constructor
          · exact (ih _ _ _ _ (by simp only [hdrop]; omega)).1
          · refine ((ih _ _ _ _ ?_).2).trans ?_
            · simp only [hdrop]; omega
            · simp [hdrop, hrev]

/-- C5 counterexample: two non-cancel items are enqueued, A first then B
(so the shared list is `[B, A]`).  The claim says a tick removes exactly
one item and leaves the other queued; the tick actually processes *both*
items (A then B) and leaves the queue empty. -/
theorem C5_counterexample :
    (display_custom
      { custom_display_queue :=
          [{ txt := ['B'], delay := 3 }, { txt := ['A'], delay := 2 }]
        displaying_custom := false
        custom_display_canceled := false }).2.1 =
      [{ txt := ['A'], delay := 2 }, { txt := ['B'], delay := 3 }] ∧
    (display_custom
      { custom_display_queue :=
          [{ txt := ['B'], delay := 3 }, { txt := ['A'], delay := 2 }]
        displaying_custom := false
        custom_display_canceled := false }).1.custom_display_queue = [] := by
  decide

/-- C5 (amended): at a scheduler tick at which the custom-message queue
is non-empty, `_display_custom` loops until the queue is empty: *all*
pending items are removed and processed during that tick, oldest (back
of the shared list) first, and the queue is left empty for subsequent
ticks. -/
theorem C5_tick_drains_whole_queue (p : LcdPlugin) :
    (display_custom p).1.custom_display_queue = [] ∧
    (display_custom p).2.1 = p.custom_display_queue.reverse := by
  have h := display_custom_loop_spec p.custom_display_queue.length p [] [] 1
    le_rfl
  exact ⟨h.1, by simpa using h.2⟩

theorem foldl_display_signal_queue (items : List DisplayItem) :
    ∀ (p : LcdPlugin),
      (items.foldl display_signal p).custom_display_queue =
        items.reverse ++ p.custom_display_queue := by
  induction items with
  | nil => intro p; simp
  | cons i is ih =>
    intro p
    simp only [List.foldl_cons, ih, display_signal]
    simp

/-- Specification side of the refinement claim C6: a first-class FIFO
queue (push-back producer, pop-front consumer) processes items in
enqueue order. -/
def fifoProcessOrder (enqueued : List DisplayItem) : List DisplayItem :=
  enqueued

/-- C6: items enqueued by `display_signal` (insert at the front of the
shared list) and consumed by `_display_custom` (pop from the back) are
processed exactly in enqueue order — the implementation refines a FIFO
queue, so for any two items A enqueued before B, A is processed before
B. -/
theorem C6_fifo_order (items : List DisplayItem) :
    (display_custom (items.foldl display_signal LcdPlugin.init)).2.1 =
      fifoProcessOrder items := by
  have h := display_custom_loop_spec
    (items.foldl display_signal LcdPlugin.init).custom_display_queue.length
    (items.foldl display_signal LcdPlugin.init) [] [] 1 le_rfl
  have h2 := h.2
  unfold display_custom
  rw [h2, foldl_display_signal_queue items LcdPlugin.init]
  simp [fifoProcessOrder, LcdPlugin.init]

/-! ## C7: write_block with equal bounds delegates to write_line -/

/-- C7: for every text, starting row, justification and positive scale
`s`, `write_block` with `min_text_size = max_text_size = s` takes the
delegation branch and is *equal* to the corresponding `write_line` call:
same return value, same final driver state, same trace of device
writes. -/
theorem C7_write_block_delegates (lcd : Lcd) (str : List Char)
    (row_start : Int) (s : Int) (justification : Nat) (busOk : Bool)
    (hs : 1 ≤ s) :
    write_block lcd str row_start s s justification busOk =
      write_line lcd str row_start s justification busOk := by
  unfold write_block
  rw [if_neg (by omega)]
  rw [if_pos (Or.inr (Or.inl rfl))]

/-- Closed instance of `C7_write_block_delegates` at a concrete call. -/
theorem C7_write_block_delegates_witness :
    write_block (Lcd.init 128 64) ['H', 'i'] 0 2 2 JUSTIFY_CENTER true =
      write_line (Lcd.init 128 64) ['H', 'i'] 0 2 JUSTIFY_CENTER true :=
  C7_write_block_delegates (Lcd.init 128 64) ['H', 'i'] 0 2 JUSTIFY_CENTER
    true (by decide)

/-! ## C9: write_line return value -/

/-- C9: for a positive scale, the return value of `write_line` depends
only on `row_start`: it is 1 exactly when `row_start` is inside the
device row-band range — whatever the text, scale, justification, and
even when every bus transaction fails — and 0 otherwise. -/
theorem C9_write_line_return (lcd : Lcd) (str : List Char)
    (row_start s : Int) (justification : Nat) (busOk : Bool)
    (hs : 1 ≤ s) :
    (write_line lcd str row_start s justification busOk).ret =
      if lcd.min_row_addr ≤ row_start ∧ row_start ≤ lcd.max_row_addr
      then 1 else 0 := by
  unfold write_line
  by_cases h : row_start < lcd.min_row_addr ∨ row_start > lcd.max_row_addr
  · have hN : ¬ (lcd.min_row_addr ≤ row_start ∧
        row_start ≤ lcd.max_row_addr) := by omega
    rw [if_pos h, if_neg hN]
  · have hP : lcd.min_row_addr ≤ row_start ∧
        row_start ≤ lcd.max_row_addr := by omega
    rw [if_neg h, if_pos hP]

/-- Closed instance of `C9_write_line_return`: an in-range row with a
failing bus still returns 1. -/
theorem C9_write_line_return_witness :
    (write_line (Lcd.init 128 64) ['H'] 2 1 JUSTIFY_LEFT false).ret =
      if (Lcd.init 128 64).min_row_addr ≤ 2 ∧
          (2 : Int) ≤ (Lcd.init 128 64).max_row_addr
      then 1 else 0 :=
  C9_write_line_return (Lcd.init 128 64) ['H'] 2 1 JUSTIFY_LEFT false
    (by decide)

/-! ## C10: the word wrap never splits a word -/

/-- Concatenation of a list of lines with a single space between
consecutive lines (the claim's reading of the wrapped output). -/
def joinWithSpace : List (List Char) → List Char
  | [] => []
  | [l] => l
  | l :: l2 :: rest => l ++ ' ' :: joinWithSpace (l2 :: rest)

theorem splitOnSpace_ne_nil (s : List Char) : splitOnSpace s ≠ [] := by
  cases s with
  | nil => simp [splitOnSpace]
  | cons c rest =>
    unfold splitOnSpace
    by_cases hc : c = ' '
    · simp [hc]
    · rw [if_neg hc]
      cases h : splitOnSpace rest <;> simp

theorem joinWithSpace_splitOnSpace (s : List Char) :
    joinWithSpace (splitOnSpace s) = s := by
  induction s with
  | nil => rfl
  | cons c rest ih =>
    unfold splitOnSpace
    by_cases hc : c = ' '
    · rw [if_pos hc]
      cases h : splitOnSpace rest with
      | nil => exact absurd h (splitOnSpace_ne_nil rest)
      | cons a t =>
        rw [h] at ih
        rw [joinWithSpace]
        simp [ih, hc]
    · rw [if_neg hc]
      cases h : splitOnSpace rest with
      | nil => exact absurd h (splitOnSpace_ne_nil rest)
      | cons a t =>
        rw [h] at ih
        cases t with
        | nil =>
          simp only [joinWithSpace] at ih ⊢
          simp [ih]
        | cons b t2 =>
          rw [joinWithSpace]
          rw [joinWithSpace] at ih
          rw [← ih]
          simp

theorem updateLast_ne_nil {α : Type} (l : List α) (f : α → α)
    (h : l ≠ []) : updateLast l f ≠ [] := by
  cases l with
  | nil => exact absurd rfl h
  | cons a rest => cases rest <;> simp [updateLast]

theorem joinWithSpace_append_singleton (w : List Char) :
    ∀ (lines : List (List Char)), lines ≠ [] →
      joinWithSpace (lines ++ [w]) = joinWithSpace lines ++ ' ' :: w := by
  intro lines
  induction lines with
  | nil => intro h; exact absurd rfl h
  | cons a rest ih =>
    intro _
    cases rest with
    | nil => simp [joinWithSpace]
    | cons b r2 =>
      have ih2 := ih (by simp)
      simp only [List.cons_append] at ih2 ⊢
      rw [joinWithSpace, joinWithSpace, ih2]
      simp

theorem joinWithSpace_updateLast (t : List Char) :
    ∀ (lines : List (List Char)), lines ≠ [] →
      joinWithSpace (updateLast lines (fun line => line ++ t)) =
        joinWithSpace lines ++ t := by
  intro lines
  induction lines with
  | nil => intro h; exact absurd rfl h
  | cons a rest ih =>
    intro _
    cases rest with
    | nil => simp [updateLast, joinWithSpace]
    | cons b r2 =>
      have ih2 := ih (by simp)
      rw [updateLast]
      cases hu : updateLast (b :: r2) (fun line => line ++ t) with
      | nil => exact absurd hu (updateLast_ne_nil (b :: r2) _ (by simp))
      | cons u us =>
        rw [hu] at ih2
        rw [joinWithSpace, joinWithSpace, ih2]
        simp

theorem wrapStep_join (cts maxWidth : Int)
    (st : List (List Char) × Int × Bool) (w : List Char) (h : st.1 ≠ []) :
    joinWithSpace (wrapStep cts maxWidth st w).1 =
      joinWithSpace st.1 ++ ' ' :: w ∧
    (wrapStep cts maxWidth st w).1 ≠ [] := by
  by_cases hc : (st.2.1 + wordSize w + 6) * cts > maxWidth
  · simp only [wrapStep, if_pos hc]
    exact ⟨joinWithSpace_append_singleton w st.1 h, by simp⟩
  · simp only [wrapStep, if_neg hc]
    have hfun : (fun line : List Char => line ++ [' '] ++ w) =
        (fun line : List Char => line ++ (' ' :: w)) := by
      funext l
      simp
    rw [hfun]
    exact ⟨joinWithSpace_updateLast (' ' :: w) st.1 h,
      updateLast_ne_nil st.1 _ h⟩

theorem wrap_fold_join (cts maxWidth : Int) :
    ∀ (ws : List (List Char)) (st : List (List Char) × Int × Bool),
      st.1 ≠ [] →
      joinWithSpace ((ws.foldl (wrapStep cts maxWidth) st).1) =
        joinWithSpace st.1 ++ (ws.map (fun w => ' ' :: w)).flatten ∧
      (ws.foldl (wrapStep cts maxWidth) st).1 ≠ [] := by
  intro ws
  induction ws with
  | nil =>
    intro st h
    exact ⟨by simp, h⟩
  | cons w ws2 ih =>
    intro st h
    have hs := wrapStep_join cts maxWidth st w h
    have ih2 := ih (wrapStep cts maxWidth st w) hs.2
    simp only [List.foldl_cons, List.map_cons, List.flatten_cons]
    refine ⟨?_, ih2.2⟩
    rw [ih2.1, hs.1]
    simp

theorem joinWithSpace_cons : ∀ (rest : List (List Char)) (w : List Char),
    joinWithSpace (w :: rest) =
      w ++ (rest.map (fun x => ' ' :: x)).flatten := by
  intro rest
  induction rest with
  | nil => intro w; simp [joinWithSpace]
  | cons b r2 ih =>
    intro w
    rw [joinWithSpace, ih b]
    simp

/-- C10: the greedy word wrap of `write_block` never splits a word: for
every input string and candidate scale, joining the wrapped lines with a
single space between consecutive lines gives back exactly the original
string (split into words, then reassembled). -/
theorem C10_wrap_round_trip (str : List Char)
    (currentTextSize maxWidth : Int) :
    joinWithSpace
        (wrapWords (splitOnSpace str) currentTextSize maxWidth).1 =
      str := by
  have hne := splitOnSpace_ne_nil str
  have hjs := joinWithSpace_splitOnSpace str
  cases h : splitOnSpace str with
  | nil => exact absurd h hne
  | cons w0 rest =>
    rw [h] at hjs
    have hf := wrap_fold_join currentTextSize maxWidth rest
      ([w0], wordSize w0, false) (by simp)
    unfold wrapWords
    rw [show joinWithSpace
        ((rest.foldl (wrapStep currentTextSize maxWidth)
          ([w0], wordSize w0, false)).1) =
        joinWithSpace [w0] ++ (rest.map (fun w => ' ' :: w)).flatten
      from hf.1]
    rw [show joinWithSpace [w0] = w0 from rfl]
    rw [← joinWithSpace_cons rest w0]
    exact hjs

end SSD1306
